import Mathlib

/-!
Shallow embedding of the booking-form server in `src/index.js` (repository
MKK-SWPS/BOOKING_FORM), restricted to the logic the claims are about: email
normalization and validation, booking-date validation, the `/book` request
handler (file-storage path), the `/available-slots` handler, and the
file-system `loadBookings` reader.

Modelling conventions:
* JavaScript strings are `List Char` (named `JsStr`).  JS `trim` and the
  regex class `\s` use the JS whitespace set, embedded in `isJsWhitespace`.
  `String.prototype.toLowerCase` is modelled by `Char.toLower` (ASCII case
  mapping; none of the characters the claims reason about — whitespace,
  `@`, `.` — are affected by case mapping).
* JS `Date` parsing is environment-dependent (the V8 date parser and the
  server's time zone).  The two places it is used are passed in as function
  parameters: `parseOk dateStr` models `!Number.isNaN(new Date(dateStr +
  "T00:00:00").getTime())`, and `tsd ts` models
  `toDateOnlyString(new Date(ts))` (empty list = no usable derived date /
  null).  Theorems quantify over these parameters.
* A missing/undefined string field of a request body or record is the empty
  list; JS truthiness of a string is non-emptiness, which coincides for the
  fields involved.  The `age` field is `Option Int` (absent/null = `none`);
  `parseInt` of an integer payload is the integer itself.
* `JSON.parse` of the persisted file is passed in as a parameter
  `parseJson : JsStr → Option (List Booking)` (`none` = parse error).
-/

abbrev JsStr := List Char

/-- The JS whitespace set: the characters matched by the regex class `\s`
and trimmed by `String.prototype.trim`. -/
def isJsWhitespace (c : Char) : Bool :=
  c.toNat = 9 || c.toNat = 10 || c.toNat = 11 || c.toNat = 12 || c.toNat = 13 ||
  c.toNat = 32 || c.toNat = 160 || c.toNat = 5760 ||
  (8192 ≤ c.toNat && c.toNat ≤ 8202) ||
  c.toNat = 8232 || c.toNat = 8233 || c.toNat = 8239 || c.toNat = 8287 ||
  c.toNat = 12288 || c.toNat = 65279

/-- `String.prototype.trim`: drop JS whitespace from both ends. -/
def jsTrim (s : JsStr) : JsStr :=
  (((s.dropWhile isJsWhitespace).reverse).dropWhile isJsWhitespace).reverse

/-- `normalizeEmail` (src/index.js:97-99): `value.trim().toLowerCase()`. -/
def normalizeEmail (value : JsStr) : JsStr :=
  (jsTrim value).map Char.toLower

/-- JS string `<=` (lexicographic by code unit; the inputs compared in the
source are ASCII date strings). -/
def strLe : JsStr → JsStr → Bool
  | [], _ => true
  | _ :: _, [] => false
  | a :: as, b :: bs => if a = b then strLe as bs else decide (a < b)

/-- A character admitted by the regex class `[^\s@]`. -/
def atomOk (c : Char) : Bool :=
  !isJsWhitespace c && !(decide (c = '@'))

/-- Matcher for `[^\s@]+` followed by a continuation `k` (with full
backtracking, so it denotes exactly the regex language). -/
def matchPlusThen (k : JsStr → Bool) : JsStr → Bool
  | [] => false
  | c :: rest => atomOk c && (k rest || matchPlusThen k rest)

/-- Matcher for `[^\s@]+$`. -/
def matchAtomsEnd (l : JsStr) : Bool :=
  matchPlusThen List.isEmpty l

/-- Matcher for `\.[^\s@]+$`. -/
def matchDotAtoms : JsStr → Bool
  | [] => false
  | c :: r => decide (c = '.') && matchAtomsEnd r

/-- Matcher for `[^\s@]+\.[^\s@]+$`. -/
def matchDomain (l : JsStr) : Bool :=
  matchPlusThen matchDotAtoms l

/-- Matcher for `@[^\s@]+\.[^\s@]+$`. -/
def matchAtDomain : JsStr → Bool
  | [] => false
  | c :: r => decide (c = '@') && matchDomain r

/-- The email regex of src/index.js:107, `/^[^\s@]+@[^\s@]+\.[^\s@]+$/`. -/
def emailRegexTest (s : JsStr) : Bool :=
  matchPlusThen matchAtDomain s

/-- `isValidEmail` (src/index.js:101-109): normalize, reject empty, then
test the regex. -/
def isValidEmail (value : JsStr) : Bool :=
  let trimmed := normalizeEmail value
  if trimmed.isEmpty then false else emailRegexTest trimmed

/-- `MIN_BOOKING_DATE` (src/index.js:70). -/
def MIN_BOOKING_DATE : JsStr := "2025-11-24".toList

/-- `MAX_BOOKING_DATE` (src/index.js:71). -/
def MAX_BOOKING_DATE : JsStr := "2025-12-05".toList

/-- `ALL_TIME_SLOTS` (src/index.js:48-61). -/
def ALL_TIME_SLOTS : List JsStr :=
  ["08:00", "09:00", "10:00", "11:00", "12:00", "13:00",
   "14:00", "15:00", "16:00", "17:00", "18:00", "19:00"].map String.toList

/-- `ALLOWED_EDUCATION_LEVELS` (src/index.js:63); `Set.has` is membership. -/
def ALLOWED_EDUCATION_LEVELS : List JsStr :=
  ["higher", "studies", "other"].map String.toList

/-- `isValidBookingDate` (src/index.js:83-95).  `parseOk` models the
`new Date(dateStr + "T00:00:00")` NaN check; the window test is JS string
comparison. -/
def isValidBookingDate (parseOk : JsStr → Bool) (dateStr : JsStr) : Bool :=
  if dateStr.isEmpty then false
  else if !parseOk dateStr then false
  else strLe MIN_BOOKING_DATE dateStr && strLe dateStr MAX_BOOKING_DATE

/-- A persisted booking record (the fields `/book` writes; legacy records
may have an empty `date` or `timestamp`, meaning the field is absent). -/
structure Booking where
  id : JsStr
  date : JsStr
  timeSlot : JsStr
  name : JsStr
  email : JsStr
  gender : JsStr
  age : Int
  education : JsStr
  nativePolishSpeaker : Bool
  timestamp : JsStr
deriving DecidableEq, Repr

/-- The expression `booking.date || (booking.timestamp ?
toDateOnlyString(new Date(booking.timestamp)) : null)` used by both the
conflict check (src/index.js:1291) and `/available-slots`
(src/index.js:1128); `[]` stands for null/empty. -/
def effectiveDate (tsd : JsStr → JsStr) (b : Booking) : JsStr :=
  if !b.date.isEmpty then b.date
  else if !b.timestamp.isEmpty then tsd b.timestamp
  else []

/-- The JSON body of a `POST /book` request (absent string field = `[]`,
absent/null `age` = `none`). -/
structure BookBody where
  date : JsStr
  timeSlot : JsStr
  name : JsStr
  email : JsStr
  gender : JsStr
  age : Option Int
  education : JsStr
  nativePolishSpeaker : Bool
deriving DecidableEq, Repr

def errAllFieldsRequired : JsStr := "Wszystkie pola są wymagane".toList

def errInvalidDate : JsStr := "Nieprawidłowa data rezerwacji".toList

def errInvalidTimeSlot : JsStr := "Nieprawidłowy termin".toList

def errInvalidEmail : JsStr := "Podaj prawidłowy adres e-mail".toList

def errInvalidAge : JsStr := "Wiek musi wynosić co najmniej 18 lat".toList

def errInvalidEducation : JsStr :=
  "Podano nieprawidłową wartość dla wykształcenia".toList

def errNotNativeSpeaker : JsStr :=
  "Rezerwacja dostępna wyłącznie dla osób, dla których polski jest językiem ojczystym.".toList

def errSlotTaken : JsStr :=
  "Ten termin jest już zarezerwowany na wybraną datę".toList

/-- The early-return validation chain of `POST /book`
(src/index.js:1246-1276), in source order; `some err` is the 400 response
body, `none` means all checks passed.  `body.age.getD 0` stands for
`parseInt(age, 10)`: the required-fields check has already ruled out an
absent `age`, so the default is never used. -/
def validateBook (parseOk : JsStr → Bool) (body : BookBody) : Option JsStr :=
  if body.date.isEmpty || body.timeSlot.isEmpty || body.name.isEmpty ||
      body.email.isEmpty || body.gender.isEmpty || body.education.isEmpty ||
      body.age.isNone then
    some errAllFieldsRequired
  else if !isValidBookingDate parseOk body.date then some errInvalidDate
  else if !(decide (body.timeSlot ∈ ALL_TIME_SLOTS)) then some errInvalidTimeSlot
  else if !isValidEmail (jsTrim body.email) then some errInvalidEmail
  else if body.age.getD 0 < 18 || body.age.getD 0 > 120 then some errInvalidAge
  else if !(decide (body.education ∈ ALLOWED_EDUCATION_LEVELS)) then
    some errInvalidEducation
  else if !body.nativePolishSpeaker then some errNotNativeSpeaker
  else none

/-- The `replacedBooking` computed at src/index.js:1282-1288: the first
store record whose normalized email equals the incoming one. -/
def findReplaced (normEmail : JsStr) (store : List Booking) : Option Booking :=
  store.find? (fun b => decide (normalizeEmail b.email = normEmail))

/-- `bookingsWithoutEmail` (src/index.js:1282-1288): all records whose
normalized email differs from the incoming one. -/
def bookingsWithoutEmail (normEmail : JsStr) (store : List Booking) : List Booking :=
  store.filter (fun b => !(decide (normalizeEmail b.email = normEmail)))

/-- `slotBooked` (src/index.js:1290-1293): some record among `others` holds
the requested `(date, timeSlot)`. -/
def slotBooked (tsd : JsStr → JsStr) (date timeSlot : JsStr)
    (others : List Booking) : Bool :=
  others.any (fun b =>
    decide (effectiveDate tsd b = date) && decide (b.timeSlot = timeSlot))

/-- The `newBooking` object (src/index.js:1299-1310); `nowId`/`nowTs`
stand for `Date.now().toString()` and `new Date().toISOString()`. -/
def mkNewBooking (nowId nowTs : JsStr) (body : BookBody) : Booking :=
  { id := nowId
    date := body.date
    timeSlot := body.timeSlot
    name := body.name
    email := jsTrim body.email
    gender := body.gender
    age := body.age.getD 0
    education := body.education
    nativePolishSpeaker := body.nativePolishSpeaker
    timestamp := nowTs }

/-- The verdict of a `POST /book` request. -/
inductive HandlerResult where
  | rejected (error : JsStr)
  | accepted (booking : Booking) (replaced : Option Booking)
deriving DecidableEq, Repr

/-- One `POST /book` request against the file store: the HTTP outcome, the
persisted store after the request, and whether the store was read/written
during it. -/
structure BookStep where
  result : HandlerResult
  store : List Booking
  storeLoaded : Bool
  storeSaved : Bool
deriving DecidableEq, Repr

/-- The `POST /book` handler (src/index.js:1241-1349), file-storage path:
run the validation chain (returning 400 before the store is touched on
failure), then load the store, drop the same-email record, reject on a
`(date, timeSlot)` conflict among the others, otherwise append the new
record and save. -/
def postBook (parseOk : JsStr → Bool) (tsd : JsStr → JsStr)
    (nowId nowTs : JsStr) (body : BookBody) (store : List Booking) : BookStep :=
  match validateBook parseOk body with
  | some err =>
    { result := .rejected err, store := store
      storeLoaded := false, storeSaved := false }
  | none =>
    let normalizedIncomingEmail := normalizeEmail (jsTrim body.email)
    let others := bookingsWithoutEmail normalizedIncomingEmail store
    if slotBooked tsd body.date body.timeSlot others then
      { result := .rejected errSlotTaken, store := store
        storeLoaded := true, storeSaved := false }
    else
      let newBooking := mkNewBooking nowId nowTs body
      { result := .accepted newBooking (findReplaced normalizedIncomingEmail store)
        store := others ++ [newBooking]
        storeLoaded := true, storeSaved := true }

/-- The `bookedSlots` computation of `/available-slots`
(src/index.js:1126-1131): time slots of the records whose effective date is
the requested one. -/
def bookedSlotsFor (tsd : JsStr → JsStr) (date : JsStr)
    (bookings : List Booking) : List JsStr :=
  (bookings.filter (fun b => decide (effectiveDate tsd b = date))).map
    Booking.timeSlot

/-- The 200 response body of `GET /available-slots`. -/
structure SlotsResponse where
  date : JsStr
  minDate : JsStr
  maxDate : JsStr
  availableSlots : List JsStr
  bookedSlots : List JsStr
deriving DecidableEq, Repr

/-- The `GET /available-slots` handler (src/index.js:1119-1146).
`queryDate = none` models an absent or non-string `date` query parameter
(the handler's `typeof` check maps both to the empty string). -/
def getAvailableSlots (parseOk : JsStr → Bool) (tsd : JsStr → JsStr)
    (queryDate : Option JsStr) (bookings : List Booking) : SlotsResponse :=
  let requestedDate := queryDate.getD []
  let date := if isValidBookingDate parseOk requestedDate then requestedDate
    else MIN_BOOKING_DATE
  let booked := bookedSlotsFor tsd date bookings
  { date := date
    minDate := MIN_BOOKING_DATE
    maxDate := MAX_BOOKING_DATE
    availableSlots := ALL_TIME_SLOTS.filter (fun slot => !(decide (slot ∈ booked)))
    bookedSlots := booked }

/-- The date backfill of `loadBookings` (src/index.js:304-319) applied to
one record: derive a missing `date` from a legacy `timestamp`. -/
def backfillDate (tsd : JsStr → JsStr) (b : Booking) : Booking :=
  if !b.date.isEmpty then b
  else if !b.timestamp.isEmpty then
    (if !(tsd b.timestamp).isEmpty then { b with date := tsd b.timestamp } else b)
  else b

/-- Whether the backfill changes a record (`needsSave` is set for it). -/
def backfillNeeded (tsd : JsStr → JsStr) (b : Booking) : Bool :=
  b.date.isEmpty && !b.timestamp.isEmpty && !(tsd b.timestamp).isEmpty

/-- Result of `loadBookings`: the collection handed to the caller and
whether the self-healing migration wrote it back. -/
structure LoadResult where
  bookings : List Booking
  savedBack : Bool
deriving DecidableEq, Repr

/-- `loadBookings` (src/index.js:289-327), file-system path, as a function
of the raw file content `data`: empty/whitespace-only content and JSON
parse failures both yield the empty collection; otherwise legacy records
get their `date` backfilled (and persisted when anything changed). -/
def loadBookingsFS (tsd : JsStr → JsStr)
    (parseJson : JsStr → Option (List Booking)) (data : JsStr) : LoadResult :=
  if (jsTrim data).isEmpty then { bookings := [], savedBack := false }
  else
    let bookings := (parseJson data).getD []
    if bookings.any (backfillNeeded tsd) then
      { bookings := bookings.map (backfillDate tsd), savedBack := true }
    else
      { bookings := bookings, savedBack := false }

/-- Modelled from the spec: the total-booking cap (`MAX_TOTAL_BOOKINGS`,
one variant: 30) belongs to a repository variant that is not among the
files under src/; src/index.js enforces no cap. -/
def MAX_TOTAL_BOOKINGS : Nat := 30

/-- Outcome of the spec's conflict resolution with a cap. -/
inductive CapResolution where
  | accepted (replaced : Option Booking) (finalStore : List Booking)
  | rejectedConflict
  | rejectedCap
deriving DecidableEq, Repr

/-- Modelled from the spec: the conflict-resolution stage of the
cap-enforcing variant, absent from src/ (spec 4.3): partition the store by
normalized email, reject if any other record holds the identical
`(date, timeSlot)`, reject if a cap is configured and `count(others) + 1`
exceeds it, otherwise accept as a replacement (delete-then-insert). -/
def resolveBookingWithCap (tsd : JsStr → JsStr) (cap : Option Nat)
    (newRecord : Booking) (store : List Booking) : CapResolution :=
  let norm := normalizeEmail newRecord.email
  let others := bookingsWithoutEmail norm store
  if slotBooked tsd newRecord.date newRecord.timeSlot others then
    .rejectedConflict
  else if (cap.map (fun c => decide (others.length + 1 > c))).getD false then
    .rejectedCap
  else
    .accepted (findReplaced norm store) (others ++ [newRecord])

/-- Spec-side check 1: all required fields present. -/
def requiredFieldsPresent (body : BookBody) : Bool :=
  !body.date.isEmpty && !body.timeSlot.isEmpty && !body.name.isEmpty &&
  !body.email.isEmpty && !body.gender.isEmpty && !body.education.isEmpty &&
  !body.age.isNone

/-- Spec-side check 5: the age is an integer within `[18, 120]`. -/
def ageWithinBounds : Option Int → Bool
  | some a => decide (18 ≤ a) && decide (a ≤ 120)
  | none => false

/-- Spec-side description of the validation sequence of `POST /book`: the
seven checks in their fixed order, each paired with the 400 error it
produces on failure. -/
def orderedChecks (parseOk : JsStr → Bool) (body : BookBody) :
    List (Bool × JsStr) :=
  [ (requiredFieldsPresent body, errAllFieldsRequired),
    (isValidBookingDate parseOk body.date, errInvalidDate),
    (decide (body.timeSlot ∈ ALL_TIME_SLOTS), errInvalidTimeSlot),
    (isValidEmail (jsTrim body.email), errInvalidEmail),
    (ageWithinBounds body.age, errInvalidAge),
    (decide (body.education ∈ ALLOWED_EDUCATION_LEVELS), errInvalidEducation),
    (body.nativePolishSpeaker, errNotNativeSpeaker) ]

/-- Spec-side semantics of the validation sequence: scan the ordered checks
and return the error of the first failing one, short-circuiting (no later
check is evaluated or can influence the result). -/
def firstFailingCheck (parseOk : JsStr → Bool) (body : BookBody) : Option JsStr :=
  (orderedChecks parseOk body).findSome?
    (fun check => if check.1 then none else some check.2)

/-- The part of a string before its first `@`. -/
def localPart (t : JsStr) : JsStr :=
  t.takeWhile (fun c => !(decide (c = '@')))

/-- The part of a string after its first `@`. -/
def domainPart (t : JsStr) : JsStr :=
  (t.dropWhile (fun c => !(decide (c = '@')))).drop 1

/-- Claim-side characterization of `isValidEmail` as C6 states it:
after trim the string is non-empty, has no whitespace, has exactly one `@`,
and the part after the `@` contains at least one `.`. -/
def emailClaimChar (s : JsStr) : Bool :=
  !(jsTrim s).isEmpty && (jsTrim s).all (fun c => !isJsWhitespace c) &&
  decide ((jsTrim s).count '@' = 1) && decide ('.' ∈ domainPart (jsTrim s))

/-- A `.` that is neither the first nor the last character. -/
def hasInteriorDot (d : JsStr) : Bool :=
  decide ('.' ∈ (d.drop 1).dropLast)

/-- Amended characterization of the email test: no whitespace, exactly one
`@` with a non-empty part before it, and a `.` strictly inside the part
after the `@`. -/
def emailAmendedChar (t : JsStr) : Bool :=
  t.all (fun c => !isJsWhitespace c) && decide (t.count '@' = 1) &&
  !(localPart t).isEmpty && hasInteriorDot (domainPart t)

/-- A date-parse oracle for concrete instances: every string parses. -/
def sampleParseOk : JsStr → Bool := fun _ => true

/-- A timestamp-derivation oracle for concrete instances: no record ever
derives a date from its timestamp. -/
def sampleTsd : JsStr → JsStr := fun _ => []

/-- A fully valid submission. -/
def bodyA : BookBody :=
  { date := "2025-11-24".toList, timeSlot := "09:00".toList
    name := "Anna Kowalska".toList, email := "anna@example.com".toList
    gender := "female".toList, age := some 30
    education := "higher".toList, nativePolishSpeaker := true }

/-- A second fully valid submission with a distinct email requesting the
same `(date, timeSlot)` as `bodyA`. -/
def bodyB : BookBody :=
  { bodyA with name := "Borys Nowak".toList, email := "borys@example.com".toList }

/-- The C2 invariant: each normalized email occurs in at most one record. -/
def emailsUnique (store : List Booking) : Prop :=
  store.Pairwise (fun a b => normalizeEmail a.email ≠ normalizeEmail b.email)

/-- A stored record: email `e@x.pl`, slot 09:00 on 2025-11-24. -/
def bookE : Booking :=
  { id := "e".toList, date := "2025-11-24".toList, timeSlot := "09:00".toList
    name := "Ewa".toList, email := "e@x.pl".toList, gender := "female".toList
    age := 30, education := "higher".toList, nativePolishSpeaker := true
    timestamp := "te".toList }

/-- A second record under a different email holding the same
`(date, timeSlot)` as `bookE` (such a store state is expressible; the
handler itself never checks the store it loads for this). -/
def bookF : Booking :=
  { bookE with id := "f".toList, email := "f@x.pl".toList, name := "Filip".toList }

/-- A record under a different email on the same date but another slot. -/
def bookG : Booking :=
  { bookE with
    id := "g".toList
    email := "g@x.pl".toList
    timeSlot := "11:00".toList
    name := "Gosia".toList }

/-- A rebooking submission for `bookE`'s email moving to a new slot. -/
def bodyE2 : BookBody :=
  { date := "2025-11-25".toList, timeSlot := "10:00".toList
    name := "Ewa".toList, email := "e@x.pl".toList, gender := "female".toList
    age := some 30, education := "higher".toList, nativePolishSpeaker := true }

/-- A submission with every field missing. -/
def bodyEmpty : BookBody :=
  { date := [], timeSlot := [], name := [], email := [], gender := []
    age := none, education := [], nativePolishSpeaker := false }

/-- The i-th of 30 pairwise-distinct-email records for the cap scenario. -/
def mkCapBooking (i : Nat) : Booking :=
  { id := [Char.ofNat (97 + i)]
    date := [Char.ofNat (97 + i)]
    timeSlot := "09:00".toList
    name := "U".toList
    email := Char.ofNat (97 + i) :: "@x.pl".toList
    gender := "female".toList
    age := 30
    education := "higher".toList
    nativePolishSpeaker := true
    timestamp := "t".toList }

/-- A store holding exactly 30 records with pairwise-distinct emails. -/
def capStore : List Booking :=
  (List.range 30).map mkCapBooking

/-- A 31st submission under an email matching none of `capStore`. -/
def capNewRecord : Booking :=
  { mkCapBooking 0 with
    id := "n".toList
    email := "zz@x.pl".toList
    date := "2025-11-24".toList }

/-- A 31st submission under the email of `capStore`'s first record,
requesting a slot held by no other record. -/
def capRebookRecord : Booking :=
  { mkCapBooking 0 with
    id := "r".toList
    date := "2025-11-24".toList
    timeSlot := "10:00".toList }

theorem dropWhile_dropWhile (p : Char → Bool) (l : JsStr) :
    (l.dropWhile p).dropWhile p = l.dropWhile p := by
  induction l with
  | nil => rfl
  | cons c t ih =>
    by_cases h : p c
    · rw [List.dropWhile_cons_of_pos h, ih]
    · rw [List.dropWhile_cons_of_neg h, List.dropWhile_cons_of_neg h]

theorem dropWhile_head_false (p : Char → Bool) (l : JsStr) (c : Char) (cs : JsStr)
    (h : l.dropWhile p = c :: cs) : p c = false := by
  induction l with
  | nil => simp at h
  | cons a t ih =>
    by_cases hpa : p a
    · rw [List.dropWhile_cons_of_pos hpa] at h
      exact ih h
    · rw [List.dropWhile_cons_of_neg hpa] at h
      cases h
      simpa using hpa

theorem jsTrim_idem (s : JsStr) : jsTrim (jsTrim s) = jsTrim s := by
  unfold jsTrim
  set A := s.dropWhile isJsWhitespace with hA
  set B := A.reverse.dropWhile isJsWhitespace with hB
  have h1 : B.reverse.dropWhile isJsWhitespace = B.reverse := by
    rcases hBr : B.reverse with _ | ⟨c, cs⟩
    · rfl
    · obtain ⟨u, hu⟩ : ∃ u, u ++ B = A.reverse := List.dropWhile_suffix _
      have hAeq : A = c :: (cs ++ u.reverse) := by
        have := congrArg List.reverse hu
        rw [List.reverse_append, List.reverse_reverse, hBr] at this
        simpa using this.symm
      have hc : isJsWhitespace c = false :=
        dropWhile_head_false isJsWhitespace s c _ (by rw [← hA, hAeq])
      rw [List.dropWhile_cons_of_neg (by simp [hc])]
  rw [h1, List.reverse_reverse, hB, dropWhile_dropWhile]

theorem normalizeEmail_jsTrim (v : JsStr) :
    normalizeEmail (jsTrim v) = normalizeEmail v := by
  unfold normalizeEmail
  rw [jsTrim_idem]


theorem matchPlusThen_iff (k : JsStr → Bool) (l : JsStr) :
    matchPlusThen k l = true ↔
      ∃ a b, l = a ++ b ∧ a ≠ [] ∧ (∀ c ∈ a, atomOk c = true) ∧ k b = true := by
  induction l with
  | nil =>
    simp only [matchPlusThen]
    constructor
    · intro h
      simp at h
    · rintro ⟨a, b, heq, hne, -, -⟩
      rcases a with _ | ⟨c, a'⟩
      · exact absurd rfl hne
      · simp at heq
  | cons c rest ih =>
    simp only [matchPlusThen, Bool.and_eq_true, Bool.or_eq_true]
    constructor
    · rintro ⟨hc, hrest | hrec⟩
      · exact ⟨[c], rest, rfl, by simp, by simpa using hc, hrest⟩
      · obtain ⟨a, b, heq, hne, hall, hk⟩ := ih.mp hrec
        refine ⟨c :: a, b, by simp [heq], by simp, ?_, hk⟩
        intro x hx
        rcases List.mem_cons.mp hx with rfl | hx
        · exact hc
        · exact hall x hx
    · rintro ⟨a, b, heq, hne, hall, hk⟩
      rcases a with _ | ⟨a0, a'⟩
      · exact absurd rfl hne
      · rw [List.cons_append] at heq
        injection heq with h1 h2
        subst h1
        refine ⟨hall c (by simp), ?_⟩
        rcases a' with _ | ⟨a1, a''⟩
        · rw [List.nil_append] at h2
          exact Or.inl (h2 ▸ hk)
        · refine Or.inr (ih.mpr ⟨a1 :: a'', b, h2, by simp, ?_, hk⟩)
          intro x hx
          exact hall x (List.mem_cons_of_mem _ hx)

theorem matchAtomsEnd_iff (l : JsStr) :
    matchAtomsEnd l = true ↔ l ≠ [] ∧ ∀ c ∈ l, atomOk c = true := by
  rw [matchAtomsEnd, matchPlusThen_iff]
  constructor
  · rintro ⟨a, b, rfl, hne, hall, hk⟩
    rw [List.isEmpty_iff] at hk
    subst hk
    simpa using ⟨hne, hall⟩
  · rintro ⟨hne, hall⟩
    exact ⟨l, [], by simp, hne, hall, rfl⟩

theorem matchDotAtoms_iff (l : JsStr) :
    matchDotAtoms l = true ↔
      ∃ z, l = '.' :: z ∧ z ≠ [] ∧ ∀ c ∈ z, atomOk c = true := by
  rcases l with _ | ⟨c, r⟩
  · simp [matchDotAtoms]
  · simp only [matchDotAtoms, Bool.and_eq_true, decide_eq_true_eq, matchAtomsEnd_iff]
    constructor
    · rintro ⟨rfl, hne, hall⟩
      exact ⟨r, rfl, hne, hall⟩
    · rintro ⟨z, heq, hne, hall⟩
      injection heq with h1 h2
      subst h1
      subst h2
      exact ⟨rfl, hne, hall⟩

theorem matchDomain_iff (l : JsStr) :
    matchDomain l = true ↔
      ∃ y z, l = y ++ '.' :: z ∧ y ≠ [] ∧ z ≠ [] ∧
        (∀ c ∈ y, atomOk c = true) ∧ (∀ c ∈ z, atomOk c = true) := by
  rw [matchDomain, matchPlusThen_iff]
  constructor
  · rintro ⟨a, b, rfl, hne, hall, hk⟩
    obtain ⟨z, rfl, hzne, hzall⟩ := (matchDotAtoms_iff b).mp hk
    exact ⟨a, z, rfl, hne, hzne, hall, hzall⟩
  · rintro ⟨y, z, rfl, hyne, hzne, hyall, hzall⟩
    exact ⟨y, '.' :: z, rfl, hyne, hyall,
      (matchDotAtoms_iff _).mpr ⟨z, rfl, hzne, hzall⟩⟩

theorem emailRegexTest_iff (t : JsStr) :
    emailRegexTest t = true ↔
      ∃ x y z, t = x ++ '@' :: (y ++ '.' :: z) ∧ x ≠ [] ∧ y ≠ [] ∧ z ≠ [] ∧
        (∀ c ∈ x, atomOk c = true) ∧ (∀ c ∈ y, atomOk c = true) ∧
        (∀ c ∈ z, atomOk c = true) := by
  rw [emailRegexTest, matchPlusThen_iff]
  constructor
  · rintro ⟨a, b, rfl, hne, hall, hk⟩
    rcases b with _ | ⟨c, r⟩
    · simp [matchAtDomain] at hk
    · simp only [matchAtDomain, Bool.and_eq_true, decide_eq_true_eq] at hk
      obtain ⟨rfl, hdom⟩ := hk
      obtain ⟨y, z, rfl, hyne, hzne, hyall, hzall⟩ := (matchDomain_iff r).mp hdom
      exact ⟨a, y, z, rfl, hne, hyne, hzne, hall, hyall, hzall⟩
  · rintro ⟨x, y, z, rfl, hxne, hyne, hzne, hxall, hyall, hzall⟩
    refine ⟨x, '@' :: (y ++ '.' :: z), rfl, hxne, hxall, ?_⟩
    simp only [matchAtDomain, Bool.and_eq_true, decide_eq_true_eq]
    exact ⟨by trivial, (matchDomain_iff _).mpr ⟨y, z, rfl, hyne, hzne, hyall, hzall⟩⟩

theorem atomOk_iff (c : Char) :
    atomOk c = true ↔ isJsWhitespace c = false ∧ c ≠ '@' := by
  simp [atomOk, Bool.not_eq_true']

theorem takeWhile_dropWhile_at_sign (x r : JsStr) (hx : ∀ c ∈ x, c ≠ '@') :
    (x ++ '@' :: r).takeWhile (fun c => !(decide (c = '@'))) = x ∧
    (x ++ '@' :: r).dropWhile (fun c => !(decide (c = '@'))) = '@' :: r := by
  induction x with
  | nil =>
    rw [List.nil_append]
    constructor
    · apply List.takeWhile_cons_of_neg
      simp
    · apply List.dropWhile_cons_of_neg
      simp
  | cons a x' ih =>
    have ha : a ≠ '@' := hx a (by simp)
    have ih' := ih (fun c hc => hx c (List.mem_cons_of_mem _ hc))
    rw [List.cons_append]
    constructor
    · rw [List.takeWhile_cons_of_pos (by simpa using ha), ih'.1]
    · rw [List.dropWhile_cons_of_pos (by simpa using ha), ih'.2]

theorem mem_takeWhile_pred {p : Char → Bool} {c : Char} :
    ∀ {l : JsStr}, c ∈ l.takeWhile p → p c = true ∧ c ∈ l := by
  intro l
  induction l with
  | nil =>
    intro h
    simp at h
  | cons a t ih =>
    intro h
    by_cases hpa : p a
    · rw [List.takeWhile_cons_of_pos hpa] at h
      rcases List.mem_cons.mp h with rfl | h
      · exact ⟨hpa, by simp⟩
      · obtain ⟨h1, h2⟩ := ih h
        exact ⟨h1, List.mem_cons_of_mem _ h2⟩
    · rw [List.takeWhile_cons_of_neg hpa] at h
      simp at h

theorem dropWhile_at_sign_of_mem {t : JsStr} (h : '@' ∈ t) :
    ∃ r, t.dropWhile (fun c => !(decide (c = '@'))) = '@' :: r := by
  induction t with
  | nil => simp at h
  | cons a t' ih =>
    by_cases ha : a = '@'
    · subst ha
      exact ⟨t', by rw [List.dropWhile_cons_of_neg (by simp)]⟩
    · have h' : '@' ∈ t' := by
        rcases List.mem_cons.mp h with h0 | h0
        · exact absurd h0.symm ha
        · exact h0
      obtain ⟨r, hr⟩ := ih h'
      exact ⟨r, by rw [List.dropWhile_cons_of_pos (by simpa using ha), hr]⟩

theorem hasInteriorDot_iff (d : JsStr) :
    hasInteriorDot d = true ↔ ∃ y z, d = y ++ '.' :: z ∧ y ≠ [] ∧ z ≠ [] := by
  unfold hasInteriorDot
  rw [decide_eq_true_eq]
  constructor
  · intro h
    rcases d with _ | ⟨d0, d'⟩
    · simp at h
    · rw [List.drop_one, List.tail_cons] at h
      have hd' : d' ≠ [] := by
        rintro rfl
        simp at h
      obtain ⟨u, v, huv⟩ := List.append_of_mem h
      have hsome : d'.getLast?.isSome := List.getLast?_isSome.mpr hd'
      obtain ⟨g, hg⟩ := Option.isSome_iff_exists.mp hsome
      obtain ⟨ys, rfl⟩ := List.getLast?_eq_some_iff.mp hg
      rw [List.dropLast_concat] at huv
      subst huv
      refine ⟨d0 :: u, v ++ [g], ?_, by simp, by simp⟩
      simp
  · rintro ⟨y, z, rfl, hy, hz⟩
    rcases y with _ | ⟨y0, y'⟩
    · exact absurd rfl hy
    · rcases z with _ | ⟨z0, z'⟩
      · exact absurd rfl hz
      · rw [List.cons_append, List.drop_one, List.tail_cons]
        have hsp : ('.' :: z0 :: z' : JsStr) = ['.'] ++ z0 :: z' := rfl
        rw [hsp, ← List.append_assoc, List.dropLast_append_cons]
        simp

theorem emailRegexTest_eq_amendedChar (t : JsStr) :
    emailRegexTest t = emailAmendedChar t := by
  refine Bool.coe_iff_coe.mp ⟨?_, ?_⟩
  · intro h
    obtain ⟨x, y, z, rfl, hxne, hyne, hzne, hxall, hyall, hzall⟩ :=
      (emailRegexTest_iff t).mp h
    have hxat : ∀ c ∈ x, c ≠ '@' := fun c hc => ((atomOk_iff c).mp (hxall c hc)).2
    obtain ⟨htake, hdrop⟩ := takeWhile_dropWhile_at_sign x (y ++ '.' :: z) hxat
    have hA : (x ++ '@' :: (y ++ '.' :: z)).all (fun c => !isJsWhitespace c) = true := by
      rw [List.all_eq_true]
      intro c hc
      have hws : isJsWhitespace c = false := by
        rcases List.mem_append.mp hc with hc | hc
        · exact ((atomOk_iff c).mp (hxall c hc)).1
        · rcases List.mem_cons.mp hc with rfl | hc
          · decide
          · rcases List.mem_append.mp hc with hc | hc
            · exact ((atomOk_iff c).mp (hyall c hc)).1
            · rcases List.mem_cons.mp hc with rfl | hc
              · decide
              · exact ((atomOk_iff c).mp (hzall c hc)).1
      simp [hws]
    have hxnot : '@' ∉ x := fun hmem => (hxat _ hmem) rfl
    have hdnot : '@' ∉ y ++ '.' :: z := by
      intro hmem
      rcases List.mem_append.mp hmem with hc | hc
      · exact ((atomOk_iff _).mp (hyall _ hc)).2 rfl
      · rcases List.mem_cons.mp hc with h0 | hc
        · exact absurd h0 (by decide)
        · exact ((atomOk_iff _).mp (hzall _ hc)).2 rfl
    have hcount : (x ++ '@' :: (y ++ '.' :: z)).count '@' = 1 := by
      rw [List.count_append, List.count_cons_self,
        List.count_eq_zero.mpr hxnot, List.count_eq_zero.mpr hdnot]
    have hxe : x.isEmpty = false := by
      rcases x with _ | _
      · exact absurd rfl hxne
      · rfl
    have hdom : domainPart (x ++ '@' :: (y ++ '.' :: z)) = y ++ '.' :: z := by
      unfold domainPart
      rw [hdrop, List.drop_one, List.tail_cons]
    have hdot : hasInteriorDot (y ++ '.' :: z) = true :=
      (hasInteriorDot_iff _).mpr ⟨y, z, rfl, hyne, hzne⟩
    unfold emailAmendedChar
    rw [hA, hdom, hdot]
    unfold localPart
    rw [htake, hxe]
    simp [hcount]
  · intro h
    simp only [emailAmendedChar, Bool.and_eq_true, List.all_eq_true,
      decide_eq_true_eq, Bool.not_eq_true', Bool.not_eq_true] at h
    obtain ⟨⟨⟨hnw, hcount⟩, hlocal⟩, hdot⟩ := h
    have hmem : '@' ∈ t := by
      by_contra hmem
      rw [List.count_eq_zero.mpr hmem] at hcount
      exact absurd hcount (by simp)
    obtain ⟨r, hr⟩ := dropWhile_at_sign_of_mem hmem
    have hts : t = t.takeWhile (fun c => !(decide (c = '@'))) ++ '@' :: r := by
      conv_lhs => rw [← List.takeWhile_append_dropWhile
        (p := fun c => !(decide (c = '@'))) (l := t), hr]
    have hdomr : domainPart t = r := by
      unfold domainPart
      rw [hr, List.drop_one, List.tail_cons]
    have hxne : t.takeWhile (fun c => !(decide (c = '@'))) ≠ [] := by
      intro hnil
      unfold localPart at hlocal
      rw [hnil] at hlocal
      simp at hlocal
    have hrnot : '@' ∉ r := by
      intro hmm
      have hc := hcount
      rw [hts, List.count_append, List.count_cons_self] at hc
      have hpos : 0 < r.count '@' := List.count_pos_iff.mpr hmm
      omega
    rw [hdomr] at hdot
    obtain ⟨y, z, hrz, hyne, hzne⟩ := (hasInteriorDot_iff r).mp hdot
    refine (emailRegexTest_iff t).mpr
      ⟨t.takeWhile (fun c => !(decide (c = '@'))), y, z, ?_, hxne, hyne, hzne, ?_, ?_, ?_⟩
    · rw [← hrz]
      exact hts
    · intro c hc
      obtain ⟨hpred, hct⟩ := mem_takeWhile_pred hc
      refine (atomOk_iff c).mpr ⟨hnw c hct, ?_⟩
      simpa using hpred
    · intro c hc
      have hcr : c ∈ r := by
        rw [hrz]
        exact List.mem_append.mpr (Or.inl hc)
      have hct : c ∈ t := by
        rw [hts]
        exact List.mem_append.mpr (Or.inr (List.mem_cons_of_mem _ hcr))
      refine (atomOk_iff c).mpr ⟨hnw c hct, ?_⟩
      intro hcq
      exact hrnot (hcq ▸ hcr)
    · intro c hc
      have hcr : c ∈ r := by
        rw [hrz]
        exact List.mem_append.mpr (Or.inr (List.mem_cons_of_mem _ hc))
      have hct : c ∈ t := by
        rw [hts]
        exact List.mem_append.mpr (Or.inr (List.mem_cons_of_mem _ hcr))
      refine (atomOk_iff c).mpr ⟨hnw c hct, ?_⟩
      intro hcq
      exact hrnot (hcq ▸ hcr)

/-- C6 counterexample: on the input `"a@b."` the trimmed string is
non-empty, has no whitespace, has exactly one `@`, and the part after the
`@` contains a `.` — yet `isValidEmail` rejects it, because the regex also
demands a character after the final `.` of the domain. -/
theorem c6_counterexample :
    isValidEmail "a@b.".toList = false ∧ emailClaimChar "a@b.".toList = true := by
  decide

/-- C6 (amended): `isValidEmail` accepts `s` exactly when the normalized
string (trim, then the case mapping, which moves no character in or out of
the classes involved) has no whitespace, has exactly one `@` preceded by at
least one character, and the part after the `@` contains a `.` that is
neither its first nor its last character. -/
theorem c6_email_validation_characterized (s : JsStr) :
    isValidEmail s = emailAmendedChar (normalizeEmail s) := by
  unfold isValidEmail
  by_cases he : (normalizeEmail s).isEmpty = true
  · rw [if_pos he]
    rw [List.isEmpty_iff.mp he]
    decide
  · rw [if_neg he, emailRegexTest_eq_amendedChar]

/-- C5: the `POST /book` validation is exactly the ordered scan of the
seven spec checks — the first failing check determines the 400 error and
later checks cannot influence the response (short-circuit). -/
theorem c5_validation_order (parseOk : JsStr → Bool) (body : BookBody) :
    validateBook parseOk body = firstFailingCheck parseOk body := by
  have hcons : ∀ (ok : Bool) (e : JsStr) (rest : List (Bool × JsStr)),
      List.findSome? (fun check => if check.1 then none else some check.2)
          ((ok, e) :: rest) =
        if ok then
          List.findSome? (fun check => if check.1 then none else some check.2) rest
        else some e := by
    intro ok e rest
    cases ok <;> simp [List.findSome?_cons]
  unfold firstFailingCheck orderedChecks
  rw [hcons, hcons, hcons, hcons, hcons, hcons, hcons, List.findSome?_nil]
  unfold validateBook requiredFieldsPresent
  rcases hage : body.age with _ | v
  · simp
  · simp only [Option.isNone_some, Bool.or_false, Bool.not_false, Bool.and_true,
      Option.getD_some, ageWithinBounds]
    have hflip : (!body.date.isEmpty && !body.timeSlot.isEmpty && !body.name.isEmpty &&
        !body.email.isEmpty && !body.gender.isEmpty && !body.education.isEmpty) =
        !(body.date.isEmpty || body.timeSlot.isEmpty || body.name.isEmpty ||
          body.email.isEmpty || body.gender.isEmpty || body.education.isEmpty) := by
      simp [Bool.not_or]
    by_cases h1 : (body.date.isEmpty || body.timeSlot.isEmpty || body.name.isEmpty ||
        body.email.isEmpty || body.gender.isEmpty || body.education.isEmpty) = true
    · have hs : (!body.date.isEmpty && !body.timeSlot.isEmpty && !body.name.isEmpty &&
          !body.email.isEmpty && !body.gender.isEmpty && !body.education.isEmpty) = false := by
        rw [hflip, h1]
        rfl
      have hsneg : ¬((!body.date.isEmpty && !body.timeSlot.isEmpty && !body.name.isEmpty &&
          !body.email.isEmpty && !body.gender.isEmpty && !body.education.isEmpty) = true) := by
        simp [hs]
      rw [if_pos h1, if_neg hsneg]
    · have h1' : (body.date.isEmpty || body.timeSlot.isEmpty || body.name.isEmpty ||
          body.email.isEmpty || body.gender.isEmpty || body.education.isEmpty) = false := by
        simpa using h1
      have hs : (!body.date.isEmpty && !body.timeSlot.isEmpty && !body.name.isEmpty &&
          !body.email.isEmpty && !body.gender.isEmpty && !body.education.isEmpty) = true := by
        rw [hflip, h1']
        rfl
      rw [if_neg h1, if_pos hs]
      by_cases h2 : isValidBookingDate parseOk body.date = true
      · have h2n : ¬((!isValidBookingDate parseOk body.date) = true) := by simp [h2]
        rw [if_neg h2n, if_pos h2]
        by_cases h3 : decide (body.timeSlot ∈ ALL_TIME_SLOTS) = true
        · have h3n : ¬((!decide (body.timeSlot ∈ ALL_TIME_SLOTS)) = true) := by simp [h3]
          rw [if_neg h3n, if_pos h3]
          by_cases h4 : isValidEmail (jsTrim body.email) = true
          · have h4n : ¬((!isValidEmail (jsTrim body.email)) = true) := by simp [h4]
            rw [if_neg h4n, if_pos h4]
            by_cases h5 : (decide (18 ≤ v) && decide (v ≤ 120)) = true
            · have h5' : 18 ≤ v ∧ v ≤ 120 := by simpa using h5
              have h5n : ¬((decide (v < 18) || decide (v > 120)) = true) := by
                simp only [Bool.or_eq_true, decide_eq_true_eq]
                omega
              rw [if_neg h5n, if_pos h5]
              by_cases h6 : decide (body.education ∈ ALLOWED_EDUCATION_LEVELS) = true
              · have h6n : ¬((!decide (body.education ∈ ALLOWED_EDUCATION_LEVELS)) = true) := by
                  simp [h6]
                rw [if_neg h6n, if_pos h6]
                by_cases h7 : body.nativePolishSpeaker = true
                · have h7n : ¬((!body.nativePolishSpeaker) = true) := by simp [h7]
                  rw [if_neg h7n, if_pos h7]
                · have h7' : body.nativePolishSpeaker = false := by simpa using h7
                  have h7p : (!body.nativePolishSpeaker) = true := by simp [h7']
                  rw [if_pos h7p, if_neg h7]
              · have h6' : decide (body.education ∈ ALLOWED_EDUCATION_LEVELS) = false := by
                  simpa using h6
                have h6p : (!decide (body.education ∈ ALLOWED_EDUCATION_LEVELS)) = true := by
                  simp [h6']
                rw [if_pos h6p, if_neg h6]
            · have h5' : ¬(18 ≤ v ∧ v ≤ 120) := by
                intro hcon
                exact h5 (by simp [hcon.1, hcon.2])
              have h5p : (decide (v < 18) || decide (v > 120)) = true := by
                simp only [Bool.or_eq_true, decide_eq_true_eq]
                omega
              rw [if_pos h5p, if_neg h5]
          · have h4' : isValidEmail (jsTrim body.email) = false := by simpa using h4
            have h4p : (!isValidEmail (jsTrim body.email)) = true := by simp [h4']
            rw [if_pos h4p, if_neg h4]
        · have h3' : decide (body.timeSlot ∈ ALL_TIME_SLOTS) = false := by simpa using h3
          have h3p : (!decide (body.timeSlot ∈ ALL_TIME_SLOTS)) = true := by simp [h3']
          rw [if_pos h3p, if_neg h3]
      · have h2' : isValidBookingDate parseOk body.date = false := by simpa using h2
        have h2p : (!isValidBookingDate parseOk body.date) = true := by simp [h2']
        rw [if_pos h2p, if_neg h2]

theorem postBook_of_valid (parseOk : JsStr → Bool) (tsd : JsStr → JsStr)
    (nowId nowTs : JsStr) (body : BookBody) (store : List Booking)
    (hv : validateBook parseOk body = none) :
    postBook parseOk tsd nowId nowTs body store =
      if slotBooked tsd body.date body.timeSlot
          (bookingsWithoutEmail (normalizeEmail body.email) store) then
        { result := .rejected errSlotTaken, store := store
          storeLoaded := true, storeSaved := false }
      else
        { result := .accepted (mkNewBooking nowId nowTs body)
            (findReplaced (normalizeEmail body.email) store)
          store := bookingsWithoutEmail (normalizeEmail body.email) store ++
            [mkNewBooking nowId nowTs body]
          storeLoaded := true, storeSaved := true } := by
  unfold postBook
  rw [hv, normalizeEmail_jsTrim]

theorem slotBooked_iff (tsd : JsStr → JsStr) (date timeSlot normEmail : JsStr)
    (store : List Booking) :
    slotBooked tsd date timeSlot (bookingsWithoutEmail normEmail store) = true ↔
      ∃ b ∈ store, normalizeEmail b.email ≠ normEmail ∧
        effectiveDate tsd b = date ∧ b.timeSlot = timeSlot := by
  unfold slotBooked bookingsWithoutEmail
  rw [List.any_eq_true]
  constructor
  · rintro ⟨b, hb, hpred⟩
    rw [List.mem_filter] at hb
    simp only [Bool.and_eq_true, decide_eq_true_eq] at hpred
    refine ⟨b, hb.1, ?_, hpred.1, hpred.2⟩
    have h2 := hb.2
    simp only [Bool.not_eq_true', decide_eq_false_iff_not] at h2
    exact h2
  · rintro ⟨b, hb, hne, hdate, hslot⟩
    refine ⟨b, ?_, ?_⟩
    · rw [List.mem_filter]
      exact ⟨hb, by simp [hne]⟩
    · simp [hdate, hslot]

/-- C9: a `POST /book` rejected by any field-validation check returns that
400 error before the bookings store is touched: the store is neither
loaded nor saved, and the persisted collection is identical before and
after the request. -/
theorem c9_rejected_before_store_access (parseOk : JsStr → Bool)
    (tsd : JsStr → JsStr) (nowId nowTs : JsStr) (body : BookBody)
    (store : List Booking) (err : JsStr)
    (hv : validateBook parseOk body = some err) :
    postBook parseOk tsd nowId nowTs body store =
      { result := .rejected err, store := store
        storeLoaded := false, storeSaved := false } := by
  unfold postBook
  rw [hv]

/-- Witness for C9: a submission with every field missing is rejected with
the required-fields error and the store (holding one record) is untouched. -/
theorem c9_witness :
    postBook sampleParseOk sampleTsd "1".toList "t".toList bodyEmpty [bookE] =
      { result := .rejected errAllFieldsRequired, store := [bookE]
        storeLoaded := false, storeSaved := false } :=
  c9_rejected_before_store_access sampleParseOk sampleTsd "1".toList "t".toList
    bodyEmpty [bookE] errAllFieldsRequired (by decide)

/-- C1: for a submission passing all field validations, the request is
rejected with the conflict error (and the store left unchanged) exactly
when some record under a different normalized email holds the submission's
`(date, timeSlot)`; when no such record exists the submission is accepted
and saved. -/
theorem c1_same_slot_conflict (parseOk : JsStr → Bool) (tsd : JsStr → JsStr)
    (nowId nowTs : JsStr) (body : BookBody) (store : List Booking)
    (hv : validateBook parseOk body = none) :
    ((∃ b ∈ store, normalizeEmail b.email ≠ normalizeEmail body.email ∧
        effectiveDate tsd b = body.date ∧ b.timeSlot = body.timeSlot) →
      postBook parseOk tsd nowId nowTs body store =
        { result := .rejected errSlotTaken, store := store
          storeLoaded := true, storeSaved := false }) ∧
    ((¬∃ b ∈ store, normalizeEmail b.email ≠ normalizeEmail body.email ∧
        effectiveDate tsd b = body.date ∧ b.timeSlot = body.timeSlot) →
      postBook parseOk tsd nowId nowTs body store =
        { result := .accepted (mkNewBooking nowId nowTs body)
            (findReplaced (normalizeEmail body.email) store)
          store := bookingsWithoutEmail (normalizeEmail body.email) store ++
            [mkNewBooking nowId nowTs body]
          storeLoaded := true, storeSaved := true }) := by
  rw [postBook_of_valid parseOk tsd nowId nowTs body store hv]
  constructor
  · intro hconf
    rw [if_pos ((slotBooked_iff tsd body.date body.timeSlot
      (normalizeEmail body.email) store).mpr hconf)]
  · intro hnoconf
    rw [if_neg (fun h => hnoconf ((slotBooked_iff tsd body.date body.timeSlot
      (normalizeEmail body.email) store).mp h))]

/-- Witness for C1 at concrete inputs: against the empty store the first
submission (`bodyA`) is accepted and saved; the second submission
(`bodyB`, a distinct email requesting the same `(date, timeSlot)`) against
the resulting store is rejected with the conflict error and leaves the
store unchanged. -/
theorem c1_witness :
    postBook sampleParseOk sampleTsd "1".toList "t1".toList bodyA [] =
      { result := .accepted (mkNewBooking "1".toList "t1".toList bodyA)
          (findReplaced (normalizeEmail bodyA.email) [])
        store := bookingsWithoutEmail (normalizeEmail bodyA.email) [] ++
          [mkNewBooking "1".toList "t1".toList bodyA]
        storeLoaded := true, storeSaved := true } ∧
    postBook sampleParseOk sampleTsd "2".toList "t2".toList bodyB
        (postBook sampleParseOk sampleTsd "1".toList "t1".toList bodyA []).store =
      { result := .rejected errSlotTaken
        store := (postBook sampleParseOk sampleTsd "1".toList "t1".toList bodyA []).store
        storeLoaded := true, storeSaved := false } :=
  ⟨(c1_same_slot_conflict sampleParseOk sampleTsd "1".toList "t1".toList bodyA []
      (by decide)).2 (by decide),
   (c1_same_slot_conflict sampleParseOk sampleTsd "2".toList "t2".toList bodyB
      ((postBook sampleParseOk sampleTsd "1".toList "t1".toList bodyA []).store)
      (by decide)).1 (by decide)⟩

/-- C2: if each normalized email occurs in at most one record, then after
any accepted `POST /book` (file-storage path) this still holds; moreover
the saved store is exactly the old store with every record under the
submission's normalized email removed, followed by the single new record. -/
theorem c2_one_record_per_email (parseOk : JsStr → Bool) (tsd : JsStr → JsStr)
    (nowId nowTs : JsStr) (body : BookBody) (store : List Booking)
    (hu : emailsUnique store)
    (hacc : (postBook parseOk tsd nowId nowTs body store).storeSaved = true) :
    (postBook parseOk tsd nowId nowTs body store).store =
      bookingsWithoutEmail (normalizeEmail body.email) store ++
        [mkNewBooking nowId nowTs body] ∧
    emailsUnique (postBook parseOk tsd nowId nowTs body store).store := by
  rcases hv : validateBook parseOk body with _ | err
  · rw [postBook_of_valid parseOk tsd nowId nowTs body store hv] at hacc ⊢
    by_cases hs : slotBooked tsd body.date body.timeSlot
        (bookingsWithoutEmail (normalizeEmail body.email) store) = true
    · rw [if_pos hs] at hacc
      cases hacc
    · rw [if_neg hs] at hacc ⊢
      refine ⟨rfl, ?_⟩
      show emailsUnique (bookingsWithoutEmail (normalizeEmail body.email) store ++
        [mkNewBooking nowId nowTs body])
      unfold emailsUnique bookingsWithoutEmail
      rw [List.pairwise_append]
      refine ⟨List.Pairwise.filter _ hu, List.pairwise_singleton _ _, ?_⟩
      intro a ha b hb
      rw [List.mem_filter] at ha
      rw [List.mem_singleton] at hb
      subst hb
      have h2 := ha.2
      simp only [Bool.not_eq_true', decide_eq_false_iff_not] at h2
      show normalizeEmail a.email ≠ normalizeEmail (jsTrim body.email)
      rw [normalizeEmail_jsTrim]
      exact h2
  · rw [c9_rejected_before_store_access parseOk tsd nowId nowTs body store err hv] at hacc
    cases hacc

/-- Witness for C2: a store holding one record for `bodyA`'s email stays
duplicate-free when `bodyA`'s email rebooks a new slot, and the saved
store is the delete-then-insert of the new record. -/
theorem c2_witness :
    (postBook sampleParseOk sampleTsd "2".toList "t2".toList
        { bodyA with timeSlot := "10:00".toList }
        [mkNewBooking "1".toList "t1".toList bodyA]).store =
      bookingsWithoutEmail
          (normalizeEmail ({ bodyA with timeSlot := "10:00".toList } : BookBody).email)
          [mkNewBooking "1".toList "t1".toList bodyA] ++
        [mkNewBooking "2".toList "t2".toList { bodyA with timeSlot := "10:00".toList }] ∧
    emailsUnique (postBook sampleParseOk sampleTsd "2".toList "t2".toList
        { bodyA with timeSlot := "10:00".toList }
        [mkNewBooking "1".toList "t1".toList bodyA]).store :=
  c2_one_record_per_email sampleParseOk sampleTsd "2".toList "t2".toList
    { bodyA with timeSlot := "10:00".toList }
    [mkNewBooking "1".toList "t1".toList bodyA]
    (by unfold emailsUnique; decide) (by decide)

theorem length_filter_split (p : Booking → Bool) (l : List Booking) :
    (l.filter p).length + (l.filter (fun b => !(p b))).length = l.length := by
  induction l with
  | nil => rfl
  | cons a t ih =>
    by_cases hpa : p a = true
    · rw [List.filter_cons, if_pos hpa, List.filter_cons,
        if_neg (by simp [hpa]), List.length_cons, List.length_cons]
      omega
    · rw [List.filter_cons, if_neg hpa, List.filter_cons,
        if_pos (by simp [Bool.not_eq_true] at hpa; simp [hpa]),
        List.length_cons, List.length_cons]
      omega

theorem validateBook_none_nonempty (parseOk : JsStr → Bool) (body : BookBody)
    (hv : validateBook parseOk body = none) :
    body.date.isEmpty = false ∧ body.email.isEmpty = false := by
  unfold validateBook at hv
  by_cases h : (body.date.isEmpty || body.timeSlot.isEmpty || body.name.isEmpty ||
      body.email.isEmpty || body.gender.isEmpty || body.education.isEmpty ||
      body.age.isNone) = true
  · rw [if_pos h] at hv
    cases hv
  · constructor
    · rcases hb : body.date.isEmpty
      · rfl
      · exact absurd (by simp [hb]) h
    · rcases hb : body.email.isEmpty
      · rfl
      · exact absurd (by simp [hb]) h

/-- C3 counterexample: the store `[bookE, bookF]` holds exactly one record
with `bookE`'s normalized email, and `bookF` (a different email) occupies
the same `(date, timeSlot)` as `bookE`.  The rebooking `bodyE2` (same
email as `bookE`, a new slot) passes validation and is accepted, yet
`bookE`'s previous time slot still appears among the booked slots of its
previous date — `bookF` keeps it booked — contradicting the claim. -/
theorem c3_counterexample :
    validateBook sampleParseOk bodyE2 = none ∧
    ([bookE, bookF].filter
      (fun b => decide (normalizeEmail b.email = normalizeEmail bodyE2.email))) = [bookE] ∧
    ¬(bodyE2.date = effectiveDate sampleTsd bookE ∧
      bodyE2.timeSlot = bookE.timeSlot) ∧
    (postBook sampleParseOk sampleTsd "9".toList "t9".toList bodyE2
      [bookE, bookF]).storeSaved = true ∧
    bookE.timeSlot ∈ bookedSlotsFor sampleTsd (effectiveDate sampleTsd bookE)
      (postBook sampleParseOk sampleTsd "9".toList "t9".toList bodyE2
        [bookE, bookF]).store := by
  decide

/-- C3 (amended): an accepted rebooking always keeps the store at the same
total size and books the new slot on the new date; the rebooker's previous
slot disappears from its previous date's booked slots provided no other
record (under a different normalized email) occupies that previous
`(date, timeSlot)` — that proviso scopes only this conjunct, and without
it the previous slot can stay booked, as the counterexample shows. -/
theorem c3_rebooking_moves_slot (parseOk : JsStr → Bool) (tsd : JsStr → JsStr)
    (nowId nowTs : JsStr) (body : BookBody) (store : List Booking) (prev : Booking)
    (hv : validateBook parseOk body = none)
    (hone : store.filter
      (fun b => decide (normalizeEmail b.email = normalizeEmail body.email)) = [prev])
    (hnew : ¬(body.date = effectiveDate tsd prev ∧ body.timeSlot = prev.timeSlot))
    (hacc : (postBook parseOk tsd nowId nowTs body store).storeSaved = true) :
    (postBook parseOk tsd nowId nowTs body store).store.length = store.length ∧
    body.timeSlot ∈ bookedSlotsFor tsd body.date
      (postBook parseOk tsd nowId nowTs body store).store ∧
    ((∀ b ∈ store, normalizeEmail b.email ≠ normalizeEmail body.email →
        ¬(effectiveDate tsd b = effectiveDate tsd prev ∧ b.timeSlot = prev.timeSlot)) →
      prev.timeSlot ∉ bookedSlotsFor tsd (effectiveDate tsd prev)
        (postBook parseOk tsd nowId nowTs body store).store) := by
  have hdate : body.date.isEmpty = false := (validateBook_none_nonempty parseOk body hv).1
  have heff : effectiveDate tsd (mkNewBooking nowId nowTs body) = body.date := by
    unfold effectiveDate mkNewBooking
    simp [hdate]
  rw [postBook_of_valid parseOk tsd nowId nowTs body store hv] at hacc ⊢
  by_cases hs : slotBooked tsd body.date body.timeSlot
      (bookingsWithoutEmail (normalizeEmail body.email) store) = true
  · rw [if_pos hs] at hacc
    cases hacc
  · rw [if_neg hs] at hacc ⊢
    refine ⟨?_, ?_, ?_⟩
    · show (bookingsWithoutEmail (normalizeEmail body.email) store ++
        [mkNewBooking nowId nowTs body]).length = store.length
      have hsplit := length_filter_split
        (fun b => decide (normalizeEmail b.email = normalizeEmail body.email)) store
      rw [hone] at hsplit
      unfold bookingsWithoutEmail
      rw [List.length_append]
      simp only [List.length_cons, List.length_nil, List.length_singleton] at hsplit ⊢
      omega
    · simp only [bookedSlotsFor, List.mem_map, List.mem_filter, decide_eq_true_eq]
      exact ⟨mkNewBooking nowId nowTs body,
        ⟨List.mem_append.mpr (Or.inr (by simp)), heff⟩, rfl⟩
    · intro hnoother hmem
      simp only [bookedSlotsFor, List.mem_map, List.mem_filter,
        decide_eq_true_eq] at hmem
      obtain ⟨b, ⟨hbmem, hbdate⟩, hbslot⟩ := hmem
      rcases List.mem_append.mp hbmem with hbo | hbn
      · unfold bookingsWithoutEmail at hbo
        rw [List.mem_filter] at hbo
        have hne : normalizeEmail b.email ≠ normalizeEmail body.email := by
          have h2 := hbo.2
          simp only [Bool.not_eq_true', decide_eq_false_iff_not] at h2
          exact h2
        exact hnoother b hbo.1 hne ⟨hbdate, hbslot⟩
      · rw [List.mem_singleton] at hbn
        subst hbn
        exact hnew ⟨by rw [← heff, hbdate], hbslot⟩

/-- Witness for C3 (amended): in the store `[bookE, bookG]` (distinct
emails, distinct slots) the rebooking `bodyE2` keeps the store at two
records, frees `bookE`'s old slot on its old date, and books the new slot
on the new date. -/
theorem c3_witness :
    (postBook sampleParseOk sampleTsd "9".toList "t9".toList bodyE2
      [bookE, bookG]).store.length = ([bookE, bookG] : List Booking).length ∧
    bodyE2.timeSlot ∈ bookedSlotsFor sampleTsd bodyE2.date
      (postBook sampleParseOk sampleTsd "9".toList "t9".toList bodyE2
        [bookE, bookG]).store ∧
    bookE.timeSlot ∉ bookedSlotsFor sampleTsd (effectiveDate sampleTsd bookE)
      (postBook sampleParseOk sampleTsd "9".toList "t9".toList bodyE2
        [bookE, bookG]).store :=
  have h := c3_rebooking_moves_slot sampleParseOk sampleTsd "9".toList "t9".toList
    bodyE2 [bookE, bookG] bookE (by decide) (by decide) (by decide) (by decide)
  ⟨h.1, h.2.1, h.2.2 (by decide)⟩

theorem length_without_of_mem (store : List Booking) (e : JsStr)
    (hu : emailsUnique store) (hmem : ∃ r ∈ store, normalizeEmail r.email = e) :
    (bookingsWithoutEmail e store).length + 1 = store.length := by
  induction store with
  | nil => simp at hmem
  | cons a t ih =>
    unfold emailsUnique at hu
    rw [List.pairwise_cons] at hu
    obtain ⟨hhead, hut⟩ := hu
    unfold bookingsWithoutEmail
    rw [List.filter_cons]
    by_cases ha : normalizeEmail a.email = e
    · rw [if_neg (by simp [ha])]
      have htall : ∀ b ∈ t, (!(decide (normalizeEmail b.email = e))) = true := by
        intro b hb
        have hne := hhead b hb
        simp only [Bool.not_eq_true', decide_eq_false_iff_not]
        intro hbe
        exact hne (by rw [ha, hbe])
      rw [List.filter_eq_self.mpr htall, List.length_cons]
    · rw [if_pos (by simp [ha])]
      have hmem' : ∃ r ∈ t, normalizeEmail r.email = e := by
        obtain ⟨r, hr, hre⟩ := hmem
        rcases List.mem_cons.mp hr with rfl | hr
        · exact absurd hre ha
        · exact ⟨r, hr, hre⟩
      have := ih hut hmem'
      unfold bookingsWithoutEmail at this
      rw [List.length_cons, List.length_cons, ← this]

theorem bookingsWithoutEmail_all (store : List Booking) (e : JsStr)
    (hall : ∀ r ∈ store, normalizeEmail r.email ≠ e) :
    bookingsWithoutEmail e store = store := by
  unfold bookingsWithoutEmail
  apply List.filter_eq_self.mpr
  intro b hb
  simp [hall b hb]

/-- C4: against a store of 30 pairwise-distinct-email records with the cap
`MAX_TOTAL_BOOKINGS = 30`, a submission under a fresh email is never
accepted (absent a slot conflict it is rejected by the cap, since
`count(others) + 1 = 31 > 30`), while a submission under one of the stored
emails whose requested slot no other record holds is accepted as a
replacement, leaving the store at exactly 30 records. -/
theorem c4_cap_enforcement (tsd : JsStr → JsStr) (newRecord : Booking)
    (store : List Booking)
    (hlen : store.length = MAX_TOTAL_BOOKINGS)
    (hu : emailsUnique store) :
    ((∀ r ∈ store, normalizeEmail r.email ≠ normalizeEmail newRecord.email) →
      (∀ rep fs, resolveBookingWithCap tsd (some MAX_TOTAL_BOOKINGS) newRecord store ≠
        CapResolution.accepted rep fs) ∧
      (slotBooked tsd newRecord.date newRecord.timeSlot
          (bookingsWithoutEmail (normalizeEmail newRecord.email) store) = false →
        resolveBookingWithCap tsd (some MAX_TOTAL_BOOKINGS) newRecord store =
          CapResolution.rejectedCap)) ∧
    ((∃ r ∈ store, normalizeEmail r.email = normalizeEmail newRecord.email) →
      slotBooked tsd newRecord.date newRecord.timeSlot
          (bookingsWithoutEmail (normalizeEmail newRecord.email) store) = false →
      resolveBookingWithCap tsd (some MAX_TOTAL_BOOKINGS) newRecord store =
        CapResolution.accepted (findReplaced (normalizeEmail newRecord.email) store)
          (bookingsWithoutEmail (normalizeEmail newRecord.email) store ++ [newRecord]) ∧
      (bookingsWithoutEmail (normalizeEmail newRecord.email) store ++
        [newRecord]).length = MAX_TOTAL_BOOKINGS) := by
  constructor
  · intro hall
    have hothers : bookingsWithoutEmail (normalizeEmail newRecord.email) store = store :=
      bookingsWithoutEmail_all store (normalizeEmail newRecord.email) hall
    constructor
    · intro rep fs
      unfold resolveBookingWithCap
      by_cases hs : slotBooked tsd newRecord.date newRecord.timeSlot
          (bookingsWithoutEmail (normalizeEmail newRecord.email) store) = true
      · rw [if_pos hs]
        intro hcon
        cases hcon
      · rw [if_neg hs]
        have hcap : ((some MAX_TOTAL_BOOKINGS).map (fun c =>
            decide ((bookingsWithoutEmail (normalizeEmail newRecord.email)
              store).length + 1 > c))).getD false = true := by
          rw [hothers]
          simp only [Option.map_some', Option.getD_some, decide_eq_true_eq, hlen]
          omega
        rw [if_pos hcap]
        intro hcon
        cases hcon
    · intro hs
      unfold resolveBookingWithCap
      rw [if_neg (by simp [hs])]
      have hcap : ((some MAX_TOTAL_BOOKINGS).map (fun c =>
          decide ((bookingsWithoutEmail (normalizeEmail newRecord.email)
            store).length + 1 > c))).getD false = true := by
        rw [hothers]
        simp only [Option.map_some', Option.getD_some, decide_eq_true_eq, hlen]
        omega
      rw [if_pos hcap]
  · intro hmem hs
    have hlen29 : (bookingsWithoutEmail (normalizeEmail newRecord.email)
        store).length + 1 = store.length :=
      length_without_of_mem store (normalizeEmail newRecord.email) hu hmem
    have hres : resolveBookingWithCap tsd (some MAX_TOTAL_BOOKINGS) newRecord store =
        CapResolution.accepted (findReplaced (normalizeEmail newRecord.email) store)
          (bookingsWithoutEmail (normalizeEmail newRecord.email) store ++
            [newRecord]) := by
      unfold resolveBookingWithCap
      rw [if_neg (by simp [hs])]
      have hcap : ((some MAX_TOTAL_BOOKINGS).map (fun c =>
          decide ((bookingsWithoutEmail (normalizeEmail newRecord.email)
            store).length + 1 > c))).getD false = false := by
        simp only [Option.map_some', Option.getD_some, decide_eq_false_iff_not]
        omega
      have hcapn : ¬(((some MAX_TOTAL_BOOKINGS).map (fun c =>
          decide ((bookingsWithoutEmail (normalizeEmail newRecord.email)
            store).length + 1 > c))).getD false = true) := by
        simp only [Option.map_some', Option.getD_some, decide_eq_true_eq]
        omega
      rw [if_neg hcapn]
    refine ⟨hres, ?_⟩
    rw [List.length_append, List.length_singleton]
    omega

/-- Witness for C4: `capStore` holds 30 distinct-email records; the
fresh-email submission `capNewRecord` (no slot conflict) is rejected by the
cap, and the same-email rebooking `capRebookRecord` is accepted with the
store staying at 30 records. -/
theorem c4_witness :
    resolveBookingWithCap sampleTsd (some MAX_TOTAL_BOOKINGS) capNewRecord capStore =
      CapResolution.rejectedCap ∧
    (resolveBookingWithCap sampleTsd (some MAX_TOTAL_BOOKINGS) capRebookRecord capStore =
      CapResolution.accepted (findReplaced (normalizeEmail capRebookRecord.email) capStore)
        (bookingsWithoutEmail (normalizeEmail capRebookRecord.email) capStore ++
          [capRebookRecord]) ∧
     (bookingsWithoutEmail (normalizeEmail capRebookRecord.email) capStore ++
       [capRebookRecord]).length = MAX_TOTAL_BOOKINGS) :=
  ⟨((c4_cap_enforcement sampleTsd capNewRecord capStore (by decide)
      (by unfold emailsUnique; decide)).1 (by decide)).2 (by decide),
   (c4_cap_enforcement sampleTsd capRebookRecord capStore (by decide)
      (by unfold emailsUnique; decide)).2 (by decide) (by decide)⟩

/-- C7: file content that is empty, whitespace-only, or unparseable as
JSON makes `loadBookings` return the empty collection (the handler keeps
serving; no storage error is surfaced). -/
theorem c7_malformed_store_reads_empty (tsd : JsStr → JsStr)
    (parseJson : JsStr → Option (List Booking)) (data : JsStr)
    (h : (jsTrim data).isEmpty = true ∨ parseJson data = none) :
    (loadBookingsFS tsd parseJson data).bookings = [] := by
  unfold loadBookingsFS
  rcases h with h | h
  · rw [if_pos h]
  · by_cases he : (jsTrim data).isEmpty = true
    · rw [if_pos he]
    · rw [if_neg he]
      simp [h]

/-- Witness for C7: a content string on which JSON parsing fails loads as
the empty collection. -/
theorem c7_witness :
    (loadBookingsFS sampleTsd (fun _ => none) "not json".toList).bookings = [] :=
  c7_malformed_store_reads_empty sampleTsd (fun _ => none) "not json".toList
    (Or.inr rfl)

/-- C8: `GET /available-slots` falls back to `minDate` as the effective
date whenever the query parameter is absent/non-string, fails to parse, or
lies outside the window; the 200 response always carries that effective
date, the two bounds, the booked slots of the effective date, and the
catalog minus the booked slots. -/
theorem c8_available_slots_response (parseOk : JsStr → Bool)
    (tsd : JsStr → JsStr) (queryDate : Option JsStr) (store : List Booking) :
    ((queryDate = none ∨ isValidBookingDate parseOk (queryDate.getD []) = false) →
      (getAvailableSlots parseOk tsd queryDate store).date = MIN_BOOKING_DATE) ∧
    (getAvailableSlots parseOk tsd queryDate store).date =
      (if isValidBookingDate parseOk (queryDate.getD []) then queryDate.getD []
        else MIN_BOOKING_DATE) ∧
    (getAvailableSlots parseOk tsd queryDate store).minDate = MIN_BOOKING_DATE ∧
    (getAvailableSlots parseOk tsd queryDate store).maxDate = MAX_BOOKING_DATE ∧
    (getAvailableSlots parseOk tsd queryDate store).bookedSlots =
      bookedSlotsFor tsd (getAvailableSlots parseOk tsd queryDate store).date store ∧
    (getAvailableSlots parseOk tsd queryDate store).availableSlots =
      ALL_TIME_SLOTS.filter (fun slot =>
        !(decide (slot ∈ (getAvailableSlots parseOk tsd queryDate store).bookedSlots))) := by
  refine ⟨?_, rfl, rfl, rfl, rfl, rfl⟩
  intro h
  have hval : isValidBookingDate parseOk (queryDate.getD []) = false := by
    rcases h with rfl | h
    · rfl
    · exact h
  show (if isValidBookingDate parseOk (queryDate.getD []) then queryDate.getD []
    else MIN_BOOKING_DATE) = MIN_BOOKING_DATE
  rw [hval]
  rfl

/-- Witness for C8: with no `date` query parameter the effective date is
`minDate`. -/
theorem c8_witness :
    (getAvailableSlots sampleParseOk sampleTsd none [bookE]).date =
      MIN_BOOKING_DATE :=
  (c8_available_slots_response sampleParseOk sampleTsd none [bookE]).1 (Or.inl rfl)

/-- C10: in every `/available-slots` response, `availableSlots` is the
catalog filtered (in catalog order) to the slots absent from
`bookedSlots`; hence the two lists are disjoint, and a catalog slot is
missing from `availableSlots` exactly when it occurs in `bookedSlots`. -/
theorem c10_available_complement_booked (parseOk : JsStr → Bool)
    (tsd : JsStr → JsStr) (queryDate : Option JsStr) (store : List Booking) :
    (getAvailableSlots parseOk tsd queryDate store).availableSlots =
      ALL_TIME_SLOTS.filter (fun slot =>
        !(decide (slot ∈ (getAvailableSlots parseOk tsd queryDate store).bookedSlots))) ∧
    (∀ slot ∈ (getAvailableSlots parseOk tsd queryDate store).availableSlots,
      slot ∉ (getAvailableSlots parseOk tsd queryDate store).bookedSlots) ∧
    (∀ slot ∈ ALL_TIME_SLOTS,
      (slot ∉ (getAvailableSlots parseOk tsd queryDate store).availableSlots ↔
        slot ∈ (getAvailableSlots parseOk tsd queryDate store).bookedSlots)) := by
  refine ⟨rfl, ?_, ?_⟩
  · intro slot hmem
    rw [show (getAvailableSlots parseOk tsd queryDate store).availableSlots =
      ALL_TIME_SLOTS.filter (fun slot =>
        !(decide (slot ∈ (getAvailableSlots parseOk tsd queryDate store).bookedSlots)))
      from rfl] at hmem
    rw [List.mem_filter] at hmem
    have h2 := hmem.2
    simp only [Bool.not_eq_true', decide_eq_false_iff_not] at h2
    exact h2
  · intro slot hslot
    rw [show (getAvailableSlots parseOk tsd queryDate store).availableSlots =
      ALL_TIME_SLOTS.filter (fun slot =>
        !(decide (slot ∈ (getAvailableSlots parseOk tsd queryDate store).bookedSlots)))
      from rfl]
    rw [List.mem_filter]
    constructor
    · intro hnot
      by_contra hnb
      exact hnot ⟨hslot, by simp [hnb]⟩
    · intro hb hand
      have h2 := hand.2
      simp only [Bool.not_eq_true', decide_eq_false_iff_not] at h2
      exact h2 hb

/-- Witness for C10 at a concrete store: a catalog slot is outside
`availableSlots` exactly when it is booked. -/
theorem c10_witness :
    "09:00".toList ∉
      (getAvailableSlots sampleParseOk sampleTsd none [bookE]).availableSlots ↔
    "09:00".toList ∈
      (getAvailableSlots sampleParseOk sampleTsd none [bookE]).bookedSlots :=
  (c10_available_complement_booked sampleParseOk sampleTsd none [bookE]).2.2
    "09:00".toList (by decide)
